import Mathlib

/-!
Shallow embedding of the token-streaming transport layer of the
`llm-local-backend` repository (file `frontend/src/services/api.ts`):
the SSE frame decoder and request-driven stream client
(`ChatAPI.sendMessageStream` with its inner `processLine`), the duplex
WebSocket client (`ChatAPI.createWebSocketChat`,
`ChatAPI.sendWebSocketMessage`), and the generation-parameter
defaulting used by `ChatAPI.sendMessage` / `sendMessageStream`.

Strings are modelled as `List Char`; JavaScript `JSON.parse` is
modelled by an executable JSON parser over `List Char`.
-/

namespace StreamSpec

/-- Model of a parsed JSON value, the result type of `JSON.parse`.
Numbers are kept exactly as mantissa and decimal exponent
(`num m e` denotes `m * 10 ^ e`); object fields keep source order. -/
inductive Json where
  | null : Json
  | bool (b : Bool) : Json
  | num (mant : Int) (exp2 : Int) : Json
  | str (s : List Char) : Json
  | arr (elems : List Json) : Json
  | obj (fields : List (List Char × Json)) : Json

/-- The opening-brace character, written via its code point. -/
def lbrace : Char := Char.ofNat 123

/-- The closing-brace character, written via its code point. -/
def rbrace : Char := Char.ofNat 125

/-- JSON whitespace (also the common JavaScript `String.trim` set). -/
def isWsChar (c : Char) : Bool :=
  c = ' ' || c = '\t' || c = '\n' || c = '\r'

/-- Drop leading JSON whitespace. -/
def skipWs (s : List Char) : List Char := s.dropWhile isWsChar

/-- Decimal digit test. -/
def isDigitCh (c : Char) : Bool := '0' ≤ c && c ≤ '9'

/-- Value of a decimal digit. -/
def digitVal (c : Char) : Nat := c.toNat - ('0').toNat

/-- Value of a hexadecimal digit, `none` if the character is not one. -/
def hexVal (c : Char) : Option Nat :=
  if '0' ≤ c && c ≤ '9' then some (c.toNat - ('0').toNat)
  else if 'a' ≤ c && c ≤ 'f' then some (c.toNat - ('a').toNat + 10)
  else if 'A' ≤ c && c ≤ 'F' then some (c.toNat - ('A').toNat + 10)
  else none

/-- Accumulate a digit string into a natural number. -/
def natOfDigits (ds : List Char) : Nat :=
  ds.foldl (fun a c => a * 10 + digitVal c) 0

/-- Parse the body of a JSON string literal (after the opening quote),
returning the decoded characters and the rest of the input after the
closing quote.  Handles the JSON escapes and rejects raw control
characters, as `JSON.parse` does.  `fuel` bounds recursion depth; one
character is consumed per step, so `length + 1` fuel suffices. -/
def parseStrBody : Nat → List Char → Option (List Char × List Char)
  | 0, _ => none
  | Nat.succ fuel, s =>
    match s with
    | [] => none
    | c :: rest =>
      if c = '"' then some ([], rest)
      else if c = '\\' then
        match rest with
        | [] => none
        | e :: rest2 =>
          let cont : Char → List Char → Option (List Char × List Char) :=
            fun ch r => (parseStrBody fuel r).map (fun p => (ch :: p.1, p.2))
          match e with
          | '"' => cont '"' rest2
          | '\\' => cont '\\' rest2
          | '/' => cont '/' rest2
          | 'b' => cont (Char.ofNat 8) rest2
          | 'f' => cont (Char.ofNat 12) rest2
          | 'n' => cont '\n' rest2
          | 'r' => cont '\r' rest2
          | 't' => cont '\t' rest2
          | 'u' =>
            match rest2 with
            | a :: b :: c2 :: d :: rest3 =>
              match hexVal a, hexVal b, hexVal c2, hexVal d with
              | some ha, some hb, some hc, some hd =>
                cont (Char.ofNat (((ha * 16 + hb) * 16 + hc) * 16 + hd)) rest3
              | _, _, _, _ => none
            | _ => none
          | _ => none
      else if c.toNat < 32 then none
      else (parseStrBody fuel rest).map (fun p => (c :: p.1, p.2))

/-- Parse a JSON number per the JSON grammar: optional minus, integer
part without leading zeros, optional fraction, optional exponent. -/
def parseNum (s : List Char) : Option (Json × List Char) :=
  let (neg, s1) :=
    match s with
    | '-' :: r => (true, r)
    | _ => (false, s)
  let intDs := s1.takeWhile isDigitCh
  let s2 := s1.dropWhile isDigitCh
  if intDs = [] then none
  else if intDs.headD '0' = '0' && intDs.length ≠ 1 then none
  else
    let (fracDs, s3) :=
      match s2 with
      | '.' :: r => (r.takeWhile isDigitCh, r.dropWhile isDigitCh)
      | _ => ([], s2)
    if s2 ≠ [] && s2.headD ' ' = '.' && fracDs = [] then none
    else
      let (expOk, expVal, s4) :=
        match s3 with
        | 'e' :: r =>
          match r with
          | '+' :: r2 => (!(r2.takeWhile isDigitCh).isEmpty, (natOfDigits (r2.takeWhile isDigitCh) : Int), r2.dropWhile isDigitCh)
          | '-' :: r2 => (!(r2.takeWhile isDigitCh).isEmpty, -(natOfDigits (r2.takeWhile isDigitCh) : Int), r2.dropWhile isDigitCh)
          | _ => (!(r.takeWhile isDigitCh).isEmpty, (natOfDigits (r.takeWhile isDigitCh) : Int), r.dropWhile isDigitCh)
        | 'E' :: r =>
          match r with
          | '+' :: r2 => (!(r2.takeWhile isDigitCh).isEmpty, (natOfDigits (r2.takeWhile isDigitCh) : Int), r2.dropWhile isDigitCh)
          | '-' :: r2 => (!(r2.takeWhile isDigitCh).isEmpty, -(natOfDigits (r2.takeWhile isDigitCh) : Int), r2.dropWhile isDigitCh)
          | _ => (!(r.takeWhile isDigitCh).isEmpty, (natOfDigits (r.takeWhile isDigitCh) : Int), r.dropWhile isDigitCh)
        | _ => (true, 0, s3)
      if !expOk then none
      else
        let mant : Int := (natOfDigits (intDs ++ fracDs) : Int)
        let mant := if neg then -mant else mant
        some (Json.num mant (expVal - (fracDs.length : Int)), s4)

mutual

/-- Parse one JSON value; returns the value and the remaining input.
`fuel` bounds the mutual recursion depth. -/
def parseVal : Nat → List Char → Option (Json × List Char)
  | 0, _ => none
  | Nat.succ fuel, s =>
    match skipWs s with
    | [] => none
    | c :: r =>
      if c = '"' then
        (parseStrBody (r.length + 1) r).map (fun p => (Json.str p.1, p.2))
      else if c = lbrace then
        match skipWs r with
        | [] => none
        | c2 :: r2 =>
          if c2 = rbrace then some (Json.obj [], r2)
          else (parseMembers fuel (c2 :: r2)).map (fun p => (Json.obj p.1, p.2))
      else if c = '[' then
        match skipWs r with
        | [] => none
        | c2 :: r2 =>
          if c2 = ']' then some (Json.arr [], r2)
          else (parseItems fuel (c2 :: r2)).map (fun p => (Json.arr p.1, p.2))
      else if c = 't' then
        match r with
        | 'r' :: 'u' :: 'e' :: r2 => some (Json.bool true, r2)
        | _ => none
      else if c = 'f' then
        match r with
        | 'a' :: 'l' :: 's' :: 'e' :: r2 => some (Json.bool false, r2)
        | _ => none
      else if c = 'n' then
        match r with
        | 'u' :: 'l' :: 'l' :: r2 => some (Json.null, r2)
        | _ => none
      else if c = '-' || isDigitCh c then parseNum (c :: r)
      else none

/-- Parse the elements of a non-empty JSON array, positioned at the
first element; consumes through the closing bracket. -/
def parseItems : Nat → List Char → Option (List Json × List Char)
  | 0, _ => none
  | Nat.succ fuel, s =>
    match parseVal fuel s with
    | none => none
    | some (v, s2) =>
      match skipWs s2 with
      | [] => none
      | c :: r =>
        if c = ',' then (parseItems fuel r).map (fun p => (v :: p.1, p.2))
        else if c = ']' then some ([v], r)
        else none

/-- Parse the members of a non-empty JSON object, positioned at the
first key; consumes through the closing brace. -/
def parseMembers : Nat → List Char → Option (List (List Char × Json) × List Char)
  | 0, _ => none
  | Nat.succ fuel, s =>
    match skipWs s with
    | [] => none
    | c :: r =>
      if c = '"' then
        match parseStrBody (r.length + 1) r with
        | none => none
        | some (key, s2) =>
          match skipWs s2 with
          | [] => none
          | c2 :: r2 =>
            if c2 = ':' then
              match parseVal fuel r2 with
              | none => none
              | some (v, s3) =>
                match skipWs s3 with
                | [] => none
                | c3 :: r3 =>
                  if c3 = ',' then
                    (parseMembers fuel r3).map (fun p => ((key, v) :: p.1, p.2))
                  else if c3 = rbrace then some ([(key, v)], r3)
                  else none
            else none
      else none

end

/-- Model of `JSON.parse`: parse one value and require only trailing
whitespace after it; `none` models a thrown `SyntaxError`. -/
def jsonParse (s : List Char) : Option Json :=
  match parseVal (2 * s.length + 2) s with
  | some (v, rest) => if skipWs rest = [] then some v else none
  | none => none

/-! ## Frame decoder (`ChatAPI.sendMessageStream` and its inner `processLine`)

The decoding loop of `sendMessageStream` keeps a string `buffer`,
appends each decoded chunk, splits on `'\n'`, pops the trailing
(possibly incomplete) fragment back into `buffer`, and runs
`processLine` on every complete line.  `processLine` trims the line,
drops blank lines, checks the `data: ` marker, special-cases the
`[DONE]` payload, and otherwise attempts `JSON.parse`, logging a
warning on failure.  -/

/-- Outcome of `processLine` on one complete line, one constructor per
return site of the source function:
`blank` — the `if (!trimmedLine) return null` branch;
`completed` — the `data === '[DONE]'` branch (`return null`);
`token` — successful `JSON.parse` (`return parsed`, the only branch
whose value the generator yields);
`parseError` — the `catch` branch (`console.warn`, `return null`);
`skip` — the final `return null` for lines without the marker. -/
inductive LineRes where
  | blank : LineRes
  | skip : LineRes
  | completed : LineRes
  | token (payload : Json) : LineRes
  | parseError (raw : List Char) : LineRes

/-- JavaScript truthiness of a parsed value: `null`, `false`, numeric
zero (including `-0`) and the empty string are falsy; every object and
array is truthy.  (`NaN`, also falsy, is outside the JSON grammar.) -/
def Json.isTruthy : Json → Bool
  | .null => false
  | .bool b => b
  | .num m _ => m != 0
  | .str s => !s.isEmpty
  | .arr _ => true
  | .obj _ => true

/-- The value the generator yields for a line: the loop runs
`const parsed = processLine(line); if (parsed) { yield parsed; }`
(part_004 lines 112–117 and 128–133), so only a successful parse whose
value is truthy is yielded; a falsy parsed value (`0`, `false`,
`null`, `""`) is dropped by the `if (parsed)` gate, and `processLine`
returns `null` in every non-token branch. -/
def LineRes.toYield : LineRes → Option Json
  | .token j => if j.isTruthy then some j else none
  | _ => none

/-- The spec-level protocol events. -/
inductive ProtocolEvent where
  | Token (payload : Json) : ProtocolEvent
  | Completed : ProtocolEvent
  | ParseError (raw : List Char) : ProtocolEvent

/-- View a line outcome as a spec-level `ProtocolEvent`; the silent
branches (blank line, line without the marker) produce no event. -/
def LineRes.toEvent : LineRes → Option ProtocolEvent
  | .token j => some (ProtocolEvent.Token j)
  | .completed => some ProtocolEvent.Completed
  | .parseError r => some (ProtocolEvent.ParseError r)
  | _ => none

/-- Model of JavaScript `String.prototype.trim` restricted to the
whitespace characters that can occur in this protocol. -/
def trimChars (s : List Char) : List Char :=
  ((s.dropWhile isWsChar).reverse.dropWhile isWsChar).reverse

/-- The six-character line marker `data: `. -/
def dataMark : List Char := ("data: ").toList

/-- The reserved termination payload `[DONE]`. -/
def doneTok : List Char := ("[DONE]").toList

/-- A full termination line, marker plus termination payload. -/
def doneLine : List Char := ("data: [DONE]").toList

/-- Translation of `processLine` (part_004 lines 139–159):
trim, drop blank lines, require the `data: ` marker, slice off the
six marker characters, special-case `[DONE]`, otherwise `JSON.parse`. -/
def processLineEv (line : List Char) : LineRes :=
  let t := trimChars line
  if t = [] then .blank
  else if dataMark.isPrefixOf t then
    let d := t.drop 6
    if d = doneTok then .completed
    else
      match jsonParse d with
      | some j => .token j
      | none => .parseError d
  else .skip

/-- The source `processLine` as a value-returning function: the parsed
payload on success (truthy or not), `null` (here `none`) in every
other branch; the truthiness gate sits at the yield site, not here. -/
def processLine (line : List Char) : Option Json :=
  match processLineEv line with
  | .token j => some j
  | _ => none

/-- Split a character sequence at every `'\n'`, as
`buffer.split('\n')` does: always returns at least one (possibly
empty) fragment, and exactly the fragments between newlines. -/
def splitNl : List Char → List (List Char)
  | [] => [[]]
  | c :: cs =>
    if c = '\n' then [] :: splitNl cs
    else (c :: (splitNl cs).headD []) :: (splitNl cs).tail

/-- One iteration of the decoding loop on a received chunk
(part_004 lines 122–133): append the chunk to the buffer, split on
newlines, keep the final fragment as the new buffer
(`buffer = lines.pop() || ''`), and process each complete line in
order.  Returns the new buffer and the line outcomes. -/
def feed (buf chunk : List Char) : List Char × List LineRes :=
  ((splitNl (buf ++ chunk)).getLastD [],
   (splitNl (buf ++ chunk)).dropLast.map processLineEv)

/-- End-of-input handling (part_004 lines 108–119, the `done` branch):
if the residual buffer is non-blank, split it and process every line
(the final fragment included, there is no pop here). -/
def flushEv (buf : List Char) : List LineRes :=
  if trimChars buf = [] then [] else (splitNl buf).map processLineEv

/-- Feed a sequence of chunks through the loop, accumulating the line
outcomes in order. -/
def feedMany (st : List Char × List LineRes) : List (List Char) → List Char × List LineRes
  | [] => st
  | c :: cs => feedMany ((feed st.1 c).1, st.2 ++ (feed st.1 c).2) cs

/-- The whole decoding run of `sendMessageStream` on a finite body
delivered as `chunks`: every loop iteration, then the end-of-input
processing of the residual buffer. -/
def runTrace (chunks : List (List Char)) : List LineRes :=
  (feedMany ([], []) chunks).2 ++ flushEv (feedMany ([], []) chunks).1

/-- The payloads the generator yields over a whole run. -/
def runYields (chunks : List (List Char)) : List Json :=
  (runTrace chunks).filterMap LineRes.toYield

/-- The spec-level protocol events of a whole run. -/
def runEvents (chunks : List (List Char)) : List ProtocolEvent :=
  (runTrace chunks).filterMap LineRes.toEvent

/-- A newline-terminated message: each line followed by `'\n'`. -/
def mkLines (ls : List (List Char)) : List Char :=
  (ls.map (fun l => l ++ ['\n'])).flatten

/-! ## Chunk-boundary invariance of the decoding loop -/

lemma splitNl_ne_nil (s : List Char) : splitNl s ≠ [] := by
  cases s with
  | nil => simp [splitNl]
  | cons c cs =>
    simp only [splitNl]
    split <;> simp

lemma getLastD_irrel {α : Type} (l : List α) (h : l ≠ []) (d d' : α) :
    l.getLastD d = l.getLastD d' := by
  cases l with
  | nil => exact absurd rfl h
  | cons x xs => rw [List.getLastD_cons, List.getLastD_cons]

lemma getLastD_append_cons {α : Type} (xs : List α) (y : α) (ys : List α) (d : α) :
    (xs ++ y :: ys).getLastD d = (y :: ys).getLastD d := by
  induction xs with
  | nil => rfl
  | cons x xs ih =>
    rw [List.cons_append, List.getLastD_cons, getLastD_irrel _ (by simp) x d, ih]

/-- Joining the two line-splits of adjoining texts: the last fragment
of the first merges with the first fragment of the second. -/
def mergeSp (xs ys : List (List Char)) : List (List Char) :=
  xs.dropLast ++ ((xs.getLastD [] ++ ys.headD []) :: ys.tail)

lemma mergeSp_cons (x : List Char) (t : List (List Char)) (ht : t ≠ [])
    (ys : List (List Char)) : mergeSp (x :: t) ys = x :: mergeSp t ys := by
  cases t with
  | nil => exact absurd rfl ht
  | cons a t2 =>
    show (x :: a :: t2).dropLast ++ _ = _
    rw [List.dropLast_cons₂, List.getLastD_cons, getLastD_irrel (a :: t2) (by simp) x []]
    rfl

lemma splitNl_append (a b : List Char) :
    splitNl (a ++ b) = mergeSp (splitNl a) (splitNl b) := by
  induction a with
  | nil =>
    rw [List.nil_append]
    cases hb : splitNl b with
    | nil => exact absurd hb (splitNl_ne_nil b)
    | cons y ys => simp [mergeSp, splitNl]
  | cons c cs ih =>
    rw [List.cons_append]
    by_cases hc : c = '\n'
    · have h1 : splitNl (c :: (cs ++ b)) = [] :: splitNl (cs ++ b) := by
        simp [splitNl, hc]
      have h2 : splitNl (c :: cs) = [] :: splitNl cs := by
        simp [splitNl, hc]
      rw [h1, h2, ih, mergeSp_cons _ _ (splitNl_ne_nil cs)]
    · cases hr : splitNl cs with
      | nil => exact absurd hr (splitNl_ne_nil cs)
      | cons h t =>
        have h1 : splitNl (c :: (cs ++ b)) =
            (c :: (mergeSp (h :: t) (splitNl b)).headD []) ::
              (mergeSp (h :: t) (splitNl b)).tail := by
          simp only [splitNl, ih, hr]
          rw [if_neg hc]
        have h2 : splitNl (c :: cs) = (c :: h) :: t := by
          simp only [splitNl, hr]
          rw [if_neg hc]
          rfl
        rw [h1, h2]
        cases t with
        | nil => simp [mergeSp]
        | cons t1 t2 =>
          rw [mergeSp_cons h (t1 :: t2) (by simp) (splitNl b),
            mergeSp_cons (c :: h) (t1 :: t2) (by simp) (splitNl b)]
          simp

lemma splitNl_no_nl {l : List Char} (h : ('\n') ∉ l) : splitNl l = [l] := by
  induction l with
  | nil => rfl
  | cons c cs ih =>
    have hc : ¬ c = '\n' := fun e => h (e ▸ List.mem_cons_self c cs)
    have hcs : ('\n') ∉ cs := fun m => h (List.mem_cons_of_mem c m)
    simp [splitNl, hc, ih hcs]

lemma no_nl_splitNl_getLastD (s : List Char) : ('\n') ∉ (splitNl s).getLastD [] := by
  induction s with
  | nil => simp [splitNl]
  | cons c cs ih =>
    simp only [splitNl]
    by_cases hc : c = '\n'
    · rw [if_pos hc, List.getLastD_cons]
      exact ih
    · rw [if_neg hc]
      cases hr : splitNl cs with
      | nil => exact absurd hr (splitNl_ne_nil cs)
      | cons h t =>
        rw [hr] at ih
        cases t with
        | nil =>
          simp only [List.headD_cons, List.tail_cons, List.getLastD_nil] at ih ⊢
          simp only [List.getLastD_cons, List.getLastD_nil]
          intro hm
          rcases List.mem_cons.mp hm with h1 | h2
          · exact hc h1.symm
          · exact ih h2
        | cons t1 t2 =>
          simp only [List.headD_cons, List.tail_cons] at ih ⊢
          rw [List.getLastD_cons] at ih ⊢
          rw [getLastD_irrel _ (by simp) (c :: h) t1]
          rw [getLastD_irrel _ (by simp) h t1] at ih
          exact ih

lemma feed_append (buf a b : List Char) :
    feed buf (a ++ b) =
      ((feed (feed buf a).1 b).1, (feed buf a).2 ++ (feed (feed buf a).1 b).2) := by
  have hnl : ('\n') ∉ (splitNl (buf ++ a)).getLastD [] := no_nl_splitNl_getLastD _
  have hM : splitNl ((splitNl (buf ++ a)).getLastD [] ++ b)
      = ((splitNl (buf ++ a)).getLastD [] ++ (splitNl b).headD []) :: (splitNl b).tail := by
    rw [splitNl_append _ b, splitNl_no_nl hnl]
    simp [mergeSp]
  have hS : splitNl (buf ++ (a ++ b))
      = (splitNl (buf ++ a)).dropLast ++ splitNl ((splitNl (buf ++ a)).getLastD [] ++ b) := by
    rw [← List.append_assoc, splitNl_append (buf ++ a) b, hM, mergeSp]
  show feed buf (a ++ b) = _
  unfold feed
  rw [hS, hM, getLastD_append_cons, List.dropLast_append_cons, List.map_append]

lemma feed_nil {buf : List Char} (h : ('\n') ∉ buf) : feed buf [] = (buf, []) := by
  unfold feed
  rw [List.append_nil, splitNl_no_nl h]
  rfl

lemma feedMany_eq (chunks : List (List Char)) :
    ∀ (buf : List Char) (evs : List LineRes), ('\n') ∉ buf →
      feedMany (buf, evs) chunks
        = ((feed buf chunks.flatten).1, evs ++ (feed buf chunks.flatten).2) := by
  induction chunks with
  | nil =>
    intro buf evs h
    simp [feedMany, feed_nil h]
  | cons c cs ih =>
    intro buf evs h
    have h2 : ('\n') ∉ (feed buf c).1 := no_nl_splitNl_getLastD _
    rw [feedMany, ih _ _ h2, List.flatten_cons, feed_append]
    simp [List.append_assoc]

lemma runTrace_flatten (chunks : List (List Char)) :
    runTrace chunks = runTrace [chunks.flatten] := by
  unfold runTrace
  rw [feedMany_eq chunks [] [] (by simp), feedMany_eq [chunks.flatten] [] [] (by simp)]
  simp

lemma splitNl_line {l : List Char} (h : ('\n') ∉ l) (rest : List Char) :
    splitNl (l ++ '\n' :: rest) = l :: splitNl rest := by
  induction l with
  | nil => simp [splitNl]
  | cons c cs ih =>
    have hc : ¬ c = '\n' := fun e => h (e ▸ List.mem_cons_self c cs)
    have hcs : ('\n') ∉ cs := fun m => h (List.mem_cons_of_mem c m)
    rw [List.cons_append]
    simp [splitNl, hc, ih hcs]

lemma splitNl_mkLines : ∀ (ls : List (List Char)), (∀ l ∈ ls, ('\n') ∉ l) →
    splitNl (mkLines ls) = ls ++ [[]]
  | [], _ => rfl
  | l :: ls, h => by
    have h1 : ('\n') ∉ l := h l (List.mem_cons_self l ls)
    have h2 : ∀ x ∈ ls, ('\n') ∉ x := fun x hx => h x (List.mem_cons_of_mem l hx)
    have e : mkLines (l :: ls) = l ++ '\n' :: mkLines ls := by
      simp [mkLines]
    rw [e, splitNl_line h1, splitNl_mkLines ls h2, List.cons_append]

lemma runTrace_mkLines (ls : List (List Char)) (h : ∀ l ∈ ls, ('\n') ∉ l) :
    runTrace [mkLines ls] = ls.map processLineEv := by
  have hfeed : feed [] (mkLines ls) = ([], ls.map processLineEv) := by
    unfold feed
    rw [List.nil_append, splitNl_mkLines ls h, List.getLastD_concat, List.dropLast_concat]
  simp [runTrace, feedMany, hfeed, flushEv, trimChars]

/-! ## Resource model of the stream client (part_004 lines 104–137)

After a successful response, `sendMessageStream` acquires the body
reader and enters `try { while ... } finally { reader.releaseLock() }`.
The execution of the generator is modelled as a trace of the
observable operations: acquiring the next chunk (`readChunk`),
yielding a payload (`yieldTok`), the single `releaseLock()` call site,
and a propagated transport exception (`raiseErr`).  JavaScript
semantics of `try`/`finally` inside a started generator: the `finally`
block runs exactly once, whether the loop ends normally (`break` on
`done`), the consumer abandons iteration (the generator is resumed
with `return()` at its current `yield`), or `reader.read()` rejects
mid-stream. -/

inductive StreamOp where
  | readChunk : StreamOp
  | yieldTok (payload : Json) : StreamOp
  | releaseLock : StreamOp
  | raiseErr : StreamOp

/-- The yield operations produced by a batch of line outcomes. -/
def yieldOps (rs : List LineRes) : List StreamOp :=
  rs.filterMap (fun r => (LineRes.toYield r).map StreamOp.yieldTok)

/-- The operations of the `try` body when the transport delivers the
given chunks and then signals `done`: one read per chunk followed by
that chunk's yields, then the final read that returns `done` and the
yields of the residual-buffer processing. -/
def bodyOps (buf : List Char) : List (List Char) → List StreamOp
  | [] => StreamOp.readChunk :: yieldOps (flushEv buf)
  | c :: cs =>
    StreamOp.readChunk :: (yieldOps (feed buf c).2 ++ bodyOps (feed buf c).1 cs)

/-- The operations of the `try` body up to (not including) a read. -/
def bodyOpsBefore (buf : List Char) : List (List Char) → List StreamOp
  | [] => []
  | c :: cs =>
    StreamOp.readChunk :: (yieldOps (feed buf c).2 ++ bodyOpsBefore (feed buf c).1 cs)

/-- Truncate the body at the point where the consumer abandons
iteration: the generator is suspended at its `(n+1)`-th `yield` and is
then resumed with `return()`, so no operation after that yield runs. -/
def cutAfterYield : Nat → List StreamOp → List StreamOp
  | _, [] => []
  | n, StreamOp.yieldTok j :: rest =>
    match n with
    | 0 => [StreamOp.yieldTok j]
    | Nat.succ m => StreamOp.yieldTok j :: cutAfterYield m rest
  | n, op :: rest => op :: cutAfterYield n rest

/-- How a started run of the generator ends: the body runs to
completion; or the consumer abandons iteration after receiving
`n + 1` payloads; or the `k`-th `reader.read()` rejects. -/
inductive StreamExit where
  | finished : StreamExit
  | abandonAfter (n : Nat) : StreamExit
  | failAt (k : Nat) : StreamExit

/-- The full operation trace of a started `sendMessageStream` run: in
every case the `finally` clause contributes its one `releaseLock()`
after the last body operation (and before a propagated exception). -/
def clientTrace (chunks : List (List Char)) : StreamExit → List StreamOp
  | .finished => bodyOps [] chunks ++ [StreamOp.releaseLock]
  | .abandonAfter n => cutAfterYield n (bodyOps [] chunks) ++ [StreamOp.releaseLock]
  | .failAt k =>
    bodyOpsBefore [] (chunks.take k) ++
      [StreamOp.readChunk, StreamOp.releaseLock, StreamOp.raiseErr]

/-- Test for the release operation. -/
def isRelease : StreamOp → Bool
  | StreamOp.releaseLock => true
  | _ => false

/-- Number of `releaseLock()` calls in a trace. -/
def relCount (ops : List StreamOp) : Nat := (ops.filter isRelease).length

lemma yieldOps_cons (r : LineRes) (rs : List LineRes) :
    yieldOps (r :: rs) =
      (match r.toYield with
       | some j => [StreamOp.yieldTok j]
       | none => []) ++ yieldOps rs := by
  unfold yieldOps
  rw [List.filterMap_cons]
  cases hr : r.toYield with
  | none => simp
  | some j => simp

lemma yieldOps_no_release (rs : List LineRes) :
    (yieldOps rs).filter isRelease = [] := by
  induction rs with
  | nil => rfl
  | cons r rs ih =>
    rw [yieldOps_cons, List.filter_append, ih]
    cases hr : r.toYield <;> simp [isRelease]

lemma bodyOps_no_release (chunks : List (List Char)) :
    ∀ buf : List Char, (bodyOps buf chunks).filter isRelease = [] := by
  induction chunks with
  | nil =>
    intro buf
    simp [bodyOps, List.filter_cons, isRelease, yieldOps_no_release]
  | cons c cs ih =>
    intro buf
    simp [bodyOps, List.filter_cons, List.filter_append, isRelease,
      yieldOps_no_release, ih]

lemma bodyOpsBefore_no_release (chunks : List (List Char)) :
    ∀ buf : List Char, (bodyOpsBefore buf chunks).filter isRelease = [] := by
  induction chunks with
  | nil => intro buf; rfl
  | cons c cs ih =>
    intro buf
    simp [bodyOpsBefore, List.filter_cons, List.filter_append, isRelease,
      yieldOps_no_release, ih]

lemma cutAfterYield_no_release (n : Nat) (ops : List StreamOp)
    (h : ops.filter isRelease = []) :
    (cutAfterYield n ops).filter isRelease = [] := by
  induction ops generalizing n with
  | nil => rfl
  | cons op rest ih =>
    cases op with
    | yieldTok j =>
      have h2 : rest.filter isRelease = [] := by
        simpa [List.filter_cons, isRelease] using h
      cases n with
      | zero => simp [cutAfterYield, isRelease]
      | succ m => simp [cutAfterYield, List.filter_cons, isRelease, ih m h2]
    | releaseLock => simp [List.filter_cons, isRelease] at h
    | readChunk =>
      have h2 : rest.filter isRelease = [] := by
        simpa [List.filter_cons, isRelease] using h
      simp [cutAfterYield, List.filter_cons, isRelease, ih n h2]
    | raiseErr =>
      have h2 : rest.filter isRelease = [] := by
        simpa [List.filter_cons, isRelease] using h
      simp [cutAfterYield, List.filter_cons, isRelease, ih n h2]

/-! ## Flush as a decoder-object operation (for end-of-input handling)

Viewed as a decoder object, the state of the stream at end of input is
its residual buffer, and the `done` branch of the loop processes it
once and then executes `break`, after which the generator is finished
and can emit nothing more.  `DecoderSt.ended` embeds that `break`. -/

inductive DecoderSt where
  | running (buf : List Char) : DecoderSt
  | ended : DecoderSt

/-- End-of-input processing as an operation on the decoder state: a
running decoder processes its residual buffer (part_004 lines 108–119)
and is then finished (`break`); a finished decoder emits nothing. -/
def flushD : DecoderSt → DecoderSt × List LineRes
  | .running buf => (.ended, flushEv buf)
  | .ended => (.ended, [])

/-! ## Duplex channel client (`createWebSocketChat`, `sendWebSocketMessage`) -/

/-- A recorded callback invocation of the WebSocket message handler.
The argument is the looked-up field of the parsed message; `none`
models a missing field (JavaScript `undefined`). -/
inductive CbCall where
  | onToken (arg : Option Json) : CbCall
  | onComplete : CbCall
  | onError (arg : Option Json) : CbCall

/-- Last-wins field lookup on a parsed JSON object, as JavaScript
property access on a `JSON.parse` result behaves with duplicate keys. -/
def lookupLast (key : List Char) : List (List Char × Json) → Option Json
  | [] => none
  | (k, v) :: rest =>
    match lookupLast key rest with
    | some r => some r
    | none => if k = key then some v else none

/-- Property access `data.field` on a parsed value: a field of an
object, `undefined` (`none`) otherwise. -/
def getField (j : Json) (key : List Char) : Option Json :=
  match j with
  | .obj fs => lookupLast key fs
  | _ => none

/-- Translation of the `ws.onmessage` handler (part_004 lines
170–184): `JSON.parse` the inbound text (a parse failure is caught and
logged, invoking nothing), then dispatch on `data.type` compared with
the three recognized discriminators; any other message invokes no
callback. -/
def dispatchMessage (raw : List Char) : List CbCall :=
  match jsonParse raw with
  | none => []
  | some d =>
    match getField d (("type").toList) with
    | some (Json.str t) =>
      if t = ("token").toList then [CbCall.onToken (getField d (("token").toList))]
      else if t = ("complete").toList then [CbCall.onComplete]
      else if t = ("error").toList then [CbCall.onError (getField d (("error").toList))]
      else []
    | _ => []

/-- The callback invocations over a sequence of inbound messages. -/
def wsRun (msgs : List (List Char)) : List CbCall :=
  (msgs.map dispatchMessage).flatten

/-- The four WebSocket `readyState` constants. -/
inductive WsReadyState where
  | CONNECTING : WsReadyState
  | OPEN : WsReadyState
  | CLOSING : WsReadyState
  | CLOSED : WsReadyState
deriving DecidableEq

/-- A chat message `{role, content}`. -/
structure ChatMessage where
  role : List Char
  content : List Char

/-- Serialization of one chat message, field order as in the source. -/
def chatMessageJson (m : ChatMessage) : Json :=
  Json.obj [(("role").toList, Json.str m.role),
            (("content").toList, Json.str m.content)]

/-- The single outbound message `sendWebSocketMessage` serializes:
`JSON.stringify({type: "chat", messages: messages})`. -/
def chatRequestJson (msgs : List ChatMessage) : Json :=
  Json.obj [(("type").toList, Json.str (("chat").toList)),
            (("messages").toList, Json.arr (msgs.map chatMessageJson))]

/-- Translation of `ChatAPI.sendWebSocketMessage` (part_004 lines
199–208): if `ws.readyState === WebSocket.OPEN`, send exactly one
serialized message; otherwise throw.  The result is the list of
messages actually handed to `ws.send` paired with the thrown error
text, if any. -/
def sendWebSocketMessage (state : WsReadyState) (msgs : List ChatMessage) :
    List Json × Option (List Char) :=
  match state with
  | .OPEN => ([chatRequestJson msgs], none)
  | _ => ([], some (("WebSocket连接未建立").toList))

/-! ## Generation-parameter defaulting (`sendMessage` / `sendMessageStream`)

Both chat entry points build the outbound body with
`max_tokens: options.maxTokens || 1000`,
`temperature: options.temperature || 0.7`,
`top_p: options.topP || 0.9` (part_004 lines 63–68 and 83–88; the
same expressions appear in `ChatFuncAPI.sendMessage`).  A missing
option is `undefined`; JavaScript `||` substitutes the default for
every falsy value, hence also for `0`. -/

/-- JavaScript `x || d` on an optional numeric option: `undefined` and
`0` are falsy, any other number is returned unchanged. -/
def jsOrDefault (v : Option ℚ) (d : ℚ) : ℚ :=
  match v with
  | none => d
  | some x => if x = 0 then d else x

/-- The caller-supplied generation options. -/
structure ChatOptions where
  maxTokens : Option ℚ
  temperature : Option ℚ
  topP : Option ℚ

/-- The generation parameters of the outbound request body. -/
structure ChatBodyParams where
  max_tokens : ℚ
  temperature : ℚ
  top_p : ℚ
deriving DecidableEq

/-- The defaulting performed while building the outbound body in
`sendMessage` and `sendMessageStream`. -/
def buildChatBodyParams (o : ChatOptions) : ChatBodyParams :=
  { max_tokens := jsOrDefault o.maxTokens 1000,
    temperature := jsOrDefault o.temperature 0.7,
    top_p := jsOrDefault o.topP 0.9 }

/-! ## The claims -/

lemma filterMap_toYield_token (l : List (List Char × Json)) :
    List.filterMap (LineRes.toYield ∘ fun p : List Char × Json => LineRes.token p.2) l
      = (l.map Prod.snd).filter Json.isTruthy := by
  induction l with
  | nil => rfl
  | cons p ps ih =>
    by_cases h : p.2.isTruthy
    · simp [List.filterMap_cons, List.filter_cons, Function.comp, LineRes.toYield, h, ih]
    · simp [List.filterMap_cons, List.filter_cons, Function.comp, LineRes.toYield, h, ih]

/-- C1: for every valid stream of well-formed `data: ` lines (each a
single line whose payload parses, so `processLineEv` classifies it as
a token) followed by the `data: [DONE]` terminator line, and for every
way of splitting that text into chunks, the decoding loop produces the
same trace — the Token outcomes in line order followed by the
terminator recognition — and yields exactly the truthy payloads in
order (the `if (parsed)` gate at the yield site drops falsy parses),
independent of where the chunk boundaries fall: both results are a
fixed function of the line list alone, hence identical for every
chunking. -/
theorem c1_chunk_split_invariance
    (items : List (List Char × Json))
    (hline : ∀ p ∈ items, ('\n') ∉ p.1 ∧ processLineEv p.1 = LineRes.token p.2)
    (chunks : List (List Char))
    (hflat : chunks.flatten = mkLines (items.map Prod.fst ++ [doneLine])) :
    runTrace chunks = items.map (fun p => LineRes.token p.2) ++ [LineRes.completed] ∧
    runYields chunks = (items.map Prod.snd).filter Json.isTruthy := by
  have hnl : ∀ l ∈ items.map Prod.fst ++ [doneLine], ('\n') ∉ l := by
    intro l hl
    rcases List.mem_append.mp hl with h1 | h2
    · obtain ⟨p, hp, rfl⟩ := List.mem_map.mp h1
      exact (hline p hp).1
    · have he : l = doneLine := by simpa using h2
      subst he
      decide
  have ht : runTrace chunks = (items.map Prod.fst ++ [doneLine]).map processLineEv := by
    rw [runTrace_flatten, hflat, runTrace_mkLines _ hnl]
  have hmap : (items.map Prod.fst).map processLineEv
      = items.map (fun p => LineRes.token p.2) := by
    rw [List.map_map]
    exact List.map_congr_left (fun p hp => (hline p hp).2)
  have hdone : processLineEv doneLine = LineRes.completed := rfl
  have htr : runTrace chunks
      = items.map (fun p => LineRes.token p.2) ++ [LineRes.completed] := by
    rw [ht, List.map_append, hmap, List.map_singleton, hdone]
  refine ⟨htr, ?_⟩
  rw [runYields, htr, List.filterMap_append, List.filterMap_map,
    filterMap_toYield_token,
    show List.filterMap LineRes.toYield [LineRes.completed] = [] from rfl,
    List.append_nil]

/-- C1 witness: a two-line stream (one token line plus terminator)
split at arbitrary points, including mid-token and mid-terminator. -/
theorem c1_chunk_split_invariance_witness :
    runTrace [("d").toList, ("ata: tr").toList, ("ue\nda").toList, ("ta: [DONE]\n").toList]
      = [LineRes.token (Json.bool true), LineRes.completed] :=
  (c1_chunk_split_invariance [(("data: true").toList, Json.bool true)]
    (by
      intro p hp
      rw [List.mem_singleton] at hp
      subst hp
      exact ⟨by decide, rfl⟩)
    [("d").toList, ("ata: tr").toList, ("ue\nda").toList, ("ta: [DONE]\n").toList]
    rfl).1

/-- C2: feeding the chunk `data: [DO` and then the chunk `NE]\n`
yields no line outcome on the first feed (the partial line stays in
the buffer), exactly the terminator recognition on the second feed,
and the whole run's event sequence is exactly one `Completed` — no
false Token or ParseError for the split terminator. -/
theorem c2_terminator_split_across_chunks :
    (feed [] (("data: [DO").toList)).2 = [] ∧
    (feed [] (("data: [DO").toList)).1 = ("data: [DO").toList ∧
    (feed (feed [] (("data: [DO").toList)).1 (("NE]\n").toList)).2
      = [LineRes.completed] ∧
    runEvents [("data: [DO").toList, ("NE]\n").toList] = [ProtocolEvent.Completed] :=
  ⟨rfl, rfl, rfl, rfl⟩

/-- C3 counterexample: after a decoded `[DONE]` line the loop of
part_004 does not stop — a further `data: ` line in the very same
chunk is still decoded and its payload is yielded, so the claim that
iteration stops at the terminator with nothing yielded after it is
false on this input. -/
theorem c3_payload_yielded_after_done :
    runTrace [("data: [DONE]\ndata: \x7b\"t\":true\x7d\n").toList]
      = [LineRes.completed,
         LineRes.token (Json.obj [(("t").toList, Json.bool true)])] ∧
    runYields [("data: [DONE]\ndata: \x7b\"t\":true\x7d\n").toList]
      = [Json.obj [(("t").toList, Json.bool true)]] :=
  ⟨rfl, rfl⟩

/-- C3 amended: a `[DONE]` line yields no payload itself (that branch
of `processLine` returns null), but decoding does not stop there:
every line of the input is processed in order, terminator or not, and
payloads of data lines after the terminator are still yielded;
iteration ends only at end of input. -/
theorem c3_done_suppressed_but_decoding_continues (ls : List (List Char))
    (h : ∀ l ∈ ls, ('\n') ∉ l) :
    runTrace [mkLines ls] = ls.map processLineEv ∧
    ∀ l : List Char, processLineEv l = LineRes.completed →
      (processLineEv l).toYield = none := by
  refine ⟨runTrace_mkLines ls h, ?_⟩
  intro l hl
  rw [hl]
  rfl

/-- C3 amended witness: a terminator line followed by a data line —
both are processed, and the later data line's outcome is a Token. -/
theorem c3_done_suppressed_witness :
    runTrace [mkLines [("data: [DONE]").toList, ("data: true").toList]]
      = [LineRes.completed, LineRes.token (Json.bool true)] :=
  ((c3_done_suppressed_but_decoding_continues
      [("data: [DONE]").toList, ("data: true").toList] (by decide)).1).trans rfl

/-- C4: for every started run of the stream client after a successful
response — the body read to its end, iteration abandoned by the
consumer after any number of received payloads, or a read failing
mid-stream — the operation trace contains exactly one
`reader.releaseLock()` call: the `finally` clause runs once on every
exit path, so the read resource is neither leaked nor double
released. -/
theorem c4_release_exactly_once (chunks : List (List Char)) (e : StreamExit) :
    relCount (clientTrace chunks e) = 1 := by
  cases e with
  | finished =>
    simp [clientTrace, relCount, List.filter_append,
      bodyOps_no_release chunks [], isRelease]
  | abandonAfter n =>
    simp [clientTrace, relCount, List.filter_append,
      cutAfterYield_no_release n _ (bodyOps_no_release chunks []), isRelease]
  | failAt k =>
    simp [clientTrace, relCount, List.filter_append, List.filter_cons,
      bodyOpsBefore_no_release (chunks.take k) [], isRelease]

/-- C5 counterexample: the line consisting of the marker with an empty
payload (`data: ` then newline) produces no event at all — in
particular no ParseError — refuting the claim that such a line yields
a ParseError rather than a silent drop. -/
theorem c5_empty_payload_no_parse_error :
    runEvents [("data: \n").toList] = [] :=
  rfl

/-- C5 amended: a complete line consisting of the marker with an empty
payload is silently dropped: `trim` removes the trailing space, so the
trimmed line `data:` fails the marker test and `processLine` takes its
final `return null` branch; no event of any kind is emitted. -/
theorem c5_empty_payload_silently_dropped :
    trimChars (("data: ").toList) = ("data:").toList ∧
    processLineEv (("data: ").toList) = LineRes.skip ∧
    runTrace [("data: \n").toList] = [LineRes.skip] :=
  ⟨rfl, rfl, rfl⟩

/-- C6: the single newline-terminated line `data: {malformed json`
produces exactly one ParseError event carrying the payload, the run
does not terminate on it, and a subsequent valid `data: ` line still
produces its Token event. -/
theorem c6_parse_error_nonfatal :
    runEvents [("data: \x7bmalformed json\n").toList]
      = [ProtocolEvent.ParseError (("\x7bmalformed json").toList)] ∧
    runEvents [("data: \x7bmalformed json\n").toList,
               ("data: \x7b\"text\":\"ok\"\x7d\n").toList]
      = [ProtocolEvent.ParseError (("\x7bmalformed json").toList),
         ProtocolEvent.Token (Json.obj [(("text").toList, Json.str (("ok").toList))])] :=
  ⟨rfl, rfl⟩

/-- C7: end-of-input processing on a decoder whose buffer holds
`data: {"text":"partial"}` with no trailing newline emits exactly one
Token outcome with that payload, and a second flush on the resulting
state emits nothing — flush is idempotent. -/
theorem c7_flush_emits_once_then_nothing :
    (flushD (DecoderSt.running (("data: \x7b\"text\":\"partial\"\x7d").toList))).2
      = [LineRes.token (Json.obj [(("text").toList, Json.str (("partial").toList))])] ∧
    (flushD (flushD (DecoderSt.running
        (("data: \x7b\"text\":\"partial\"\x7d").toList))).1).2 = [] :=
  ⟨rfl, rfl⟩

/-- C8: receiving the three inbound messages
`{"type":"token","token":"a"}`, `{"type":"token","token":"b"}`,
`{"type":"complete"}` in order invokes onToken("a"), onToken("b"),
then onComplete exactly once and never onError; a message with an
unrecognized `type` discriminator invokes no callback at all. -/
theorem c8_ws_dispatch_order_and_unknown_ignored :
    wsRun [("\x7b\"type\":\"token\",\"token\":\"a\"\x7d").toList,
           ("\x7b\"type\":\"token\",\"token\":\"b\"\x7d").toList,
           ("\x7b\"type\":\"complete\"\x7d").toList]
      = [CbCall.onToken (some (Json.str (("a").toList))),
         CbCall.onToken (some (Json.str (("b").toList))),
         CbCall.onComplete] ∧
    dispatchMessage (("\x7b\"type\":\"unknown\"\x7d").toList) = [] :=
  ⟨rfl, rfl⟩

/-- C9: with the connection Open, `sendWebSocketMessage` hands exactly
one serialized message to the socket, an object whose `type`
discriminator is `chat` and whose `messages` field is the ordered
message sequence; in any other `readyState` it sends nothing and
throws immediately — the message is never queued. -/
theorem c9_send_one_message_only_when_open
    (msgs : List ChatMessage) (st : WsReadyState) (h : st ≠ WsReadyState.OPEN) :
    sendWebSocketMessage WsReadyState.OPEN msgs = ([chatRequestJson msgs], none) ∧
    getField (chatRequestJson msgs) (("type").toList)
      = some (Json.str (("chat").toList)) ∧
    getField (chatRequestJson msgs) (("messages").toList)
      = some (Json.arr (msgs.map chatMessageJson)) ∧
    sendWebSocketMessage st msgs = ([], some (("WebSocket连接未建立").toList)) := by
  refine ⟨rfl, rfl, rfl, ?_⟩
  cases st with
  | OPEN => exact absurd rfl h
  | CONNECTING => rfl
  | CLOSING => rfl
  | CLOSED => rfl

/-- C9 witness: sending on a closed socket sends nothing and throws. -/
theorem c9_send_witness :
    sendWebSocketMessage WsReadyState.CLOSED [⟨("user").toList, ("hi").toList⟩]
      = ([], some (("WebSocket连接未建立").toList)) :=
  (c9_send_one_message_only_when_open [⟨("user").toList, ("hi").toList⟩]
    WsReadyState.CLOSED (by decide)).2.2.2

/-- C10: a generation parameter supplied as `0` — a falsy value — is
replaced by the default in the outbound body exactly as a missing
parameter is: `||`-defaulting substitutes 1000, 0.7 and 0.9 for
`maxTokens`, `temperature` and `topP` even when the caller passed 0. -/
theorem c10_zero_options_replaced_by_defaults :
    buildChatBodyParams ⟨some 0, some 0, some 0⟩
      = { max_tokens := 1000, temperature := 0.7, top_p := 0.9 } ∧
    buildChatBodyParams ⟨none, none, none⟩
      = { max_tokens := 1000, temperature := 0.7, top_p := 0.9 } :=
  ⟨rfl, rfl⟩

end StreamSpec
